import Mathlib

/-
Shallow embedding of the L2/L3 stream correlation engine of pancloud-nodejs
(src/lib/l2correlator.ts) and the fan-out layer of src/lib/emitter.ts.

Events are JavaScript records carrying string-valued fields; the engine only
ever reads field presence and string field values, so a record is embedded as
an ordered association list of string fields.  A payload element that is not
an object is embedded as JsVal.prim: applying the JavaScript "in" operator to
such a value throws a TypeError, which the embedding models with Except.
-/

namespace PanCloud

/-- A JavaScript value appearing in a log batch payload: either an object
with ordered string fields, or a non-object primitive. -/
inductive JsVal where
  | obj (fields : List (String × String))
  | prim (v : String)
deriving DecidableEq, Repr

/-- Ordered field list of a JavaScript object. -/
abbrev Fields := List (String × String)

/-- Field-presence test, the JavaScript "k in x" check for an object. -/
def hasField (fs : Fields) (k : String) : Bool :=
  fs.any (fun p => p.1 == k)

/-- Field read, JavaScript x[k]: none models undefined. -/
def jsGet (fs : Fields) (k : String) : Option String :=
  (fs.find? (fun p => p.1 == k)).map (fun p => p.2)

/-- Field read defaulting to the empty string; only used under a hasField
guard, where it agrees with jsGet. -/
def jsGetD (fs : Fields) (k : String) : String :=
  (jsGet fs k).getD ""

/-- JavaScript object-spread override: an existing key keeps its position and
receives the new value, a fresh key is appended. -/
def jsSet (fs : Fields) (k : String) (v : String) : Fields :=
  if hasField fs k then
    fs.map (fun p => if p.1 == k then (p.1, v) else p)
  else
    fs ++ [(k, v)]

/-- Embeds isEvent of l2correlator.ts: the two "in" checks on an object, and
the TypeError the "in" operator raises on a non-object. -/
def isEvent : JsVal → Except String Bool
  | JsVal.obj fs => Except.ok (hasField fs "time_generated" && hasField fs "sessionid")
  | JsVal.prim _ => Except.error "TypeError: cannot use in operator on a non-object"

/-- Field-level isEvent, for values already known to be objects. -/
def isEventF (fs : Fields) : Bool :=
  hasField fs "time_generated" && hasField fs "sessionid"

/-- Embeds isL3Event on an object's fields. -/
def isL3EventF (fs : Fields) : Bool :=
  isEventF fs && hasField fs "src" && hasField fs "dst"

/-- Embeds isL2Event on an object's fields. -/
def isL2EventF (fs : Fields) : Bool :=
  isEventF fs && hasField fs "extended-traffic-log-mac" &&
    hasField fs "extended-traffic-log-mac-stc"

/-- Decimal digit run to a natural number. -/
def digitsToNat (cs : List Char) : Nat :=
  cs.foldl (fun a c => a * 10 + (c.toNat - '0'.toNat)) 0

/-- Embeds JavaScript parseInt(s, 10): skip leading whitespace, optional
sign, then the longest run of decimal digits; none models NaN. -/
def parseInt10 (s : String) : Option Int :=
  let cs := s.data.dropWhile Char.isWhitespace
  match cs with
  | '-' :: rest =>
      let ds := rest.takeWhile Char.isDigit
      if ds.isEmpty then none else some (-(digitsToNat ds : Int))
  | '+' :: rest =>
      let ds := rest.takeWhile Char.isDigit
      if ds.isEmpty then none else some (digitsToNat ds : Int)
  | _ =>
      let ds := cs.takeWhile Char.isDigit
      if ds.isEmpty then none else some (digitsToNat ds : Int)

/-- A Store element (DbItem of l2correlator.ts); the nested meta record is
flattened into the source and logType fields. -/
structure DbItem where
  ts : Int
  element : Fields
  source : String
  logType : Option String
deriving DecidableEq, Repr

/-- The MacCorrelator instance state: configuration, Store (db), watermark
and the CorrelationStats counters, flattened. -/
structure CorrState where
  ageout : Int
  absoluteTime : Bool
  gbMultiplier : Nat
  gbAttempt : Nat
  db : List DbItem
  lastTs : Int
  agedOut : Nat
  dbWaterMark : Nat
  dbInserts : Nat
  discardedEvents : Nat
deriving DecidableEq, Repr

/-- The MacCorrelator constructor. -/
def mkCorrelator (ageout : Int) (absoluteTime : Bool) (gbMultiplier : Nat) : CorrState :=
  { ageout := ageout
    absoluteTime := absoluteTime
    gbMultiplier := gbMultiplier
    gbAttempt := 0
    db := []
    lastTs := 0
    agedOut := 0
    dbWaterMark := 0
    dbInserts := 0
    discardedEvents := 0 }

/-- Stable ascending sort by timestamp, the in-place
db.sort((a, b) => a.ts - b.ts) of gb. -/
def sortByTs (db : List DbItem) : List DbItem :=
  List.insertionSort (fun a b => a.ts ≤ b.ts) db

/-- The pointer left behind by the every-scan of gb: every visits indices in
order, storing each visited index in pointer, and stops at the first element
whose timestamp is not below the cutoff.  The final pointer is the last
visited index, or 0 when the list is empty. -/
def goPointer (fromTs : Int) : List DbItem → Nat → Nat
  | [], 0 => 0
  | [], i + 1 => i
  | x :: rest, i => if x.ts < fromTs then goPointer fromTs rest (i + 1) else i

/-- Embeds the private gb method.  Date.now() of absolute-time mode is
supplied as the oracle argument now (in seconds).  Returns the collected
aged-out entries (null modelled as none) and the successor state. -/
def gb (s : CorrState) (now : Int) : Option (List DbItem) × CorrState :=
  let attempt := s.gbAttempt + 1
  if attempt > s.gbMultiplier then
    let fromTs0 : Int := if s.absoluteTime then now else s.lastTs
    let fromTs := fromTs0 - s.ageout
    let sorted := sortByTs s.db
    let pointer := goPointer fromTs sorted 0
    if pointer ≠ 0 then
      let collected := sorted.take pointer
      (some collected,
        { s with gbAttempt := 0, db := sorted.drop pointer,
                 agedOut := s.agedOut + collected.length })
    else
      (none, { s with gbAttempt := 0, db := sorted })
  else
    (none, { s with gbAttempt := attempt })

/-- The update result record; both fields are optional exactly as in the
source object literals. -/
structure UpdateResp where
  noncorr : Option (List DbItem)
  corr : Option DbItem
deriving DecidableEq, Repr

/-- The two bookkeeping steps at the head of update: the dbWaterMark update
and the watermark advance of lastTs. -/
def bookkeep (s : CorrState) (dbI : DbItem) : CorrState :=
  let s1 := if s.db.length > s.dbWaterMark then { s with dbWaterMark := s.db.length } else s
  if dbI.ts > s1.lastTs then { s1 with lastTs := dbI.ts } else s1

/-- The session-id match predicate of the findIndex call in update. -/
def sessionMatch (dbI : DbItem) (x : DbItem) : Bool :=
  jsGet x.element "sessionid" == jsGet dbI.element "sessionid"

/-- The correlatedEvent object spread of update: the fields of the L3 side,
overridden with the two MAC fields taken from the L2 side. -/
def l3MergedElement (l3Side l2Side : DbItem) : Fields :=
  jsSet (jsSet l3Side.element "extended-traffic-log-mac"
      (jsGetD l2Side.element "extended-traffic-log-mac"))
    "extended-traffic-log-mac-stc"
    (jsGetD l2Side.element "extended-traffic-log-mac-stc")

/-- Embeds the private update method.  findIndex plus the index access and
splice(matchIdx, 1) are rendered as find? and eraseP of the first match,
which erase exactly the element findIndex designates.  The two sequential
if-return blocks on (isL2Event matched, isL3Event new) and
(isL3Event matched, isL2Event new) are rendered as a cascade of the same
two tests. -/
def update (s0 : CorrState) (now : Int) (dbI : DbItem) : Option UpdateResp × CorrState :=
  let sb := bookkeep s0 dbI
  let r := gb sb now
  let collectedItems := r.1
  let s := r.2
  if dbI.ts < s.lastTs - s.ageout then
    match collectedItems with
    | some c => (some { noncorr := some (c ++ [dbI]), corr := none }, s)
    | none => (some { noncorr := some [dbI], corr := none }, s)
  else
    match s.db.find? (sessionMatch dbI) with
    | none =>
      let s' := { s with db := s.db ++ [dbI], dbInserts := s.dbInserts + 1 }
      match collectedItems with
      | some c => (some { noncorr := some c, corr := none }, s')
      | none => (none, s')
    | some matchedElement =>
      if isL2EventF matchedElement.element && isL3EventF dbI.element then
        let correlatedEvent := l3MergedElement dbI matchedElement
        let dbI' := { dbI with element := correlatedEvent }
        let s' := { s with db := s.db.eraseP (sessionMatch dbI) }
        match collectedItems with
        | some c => (some { noncorr := some (c ++ [matchedElement]), corr := some dbI' }, s')
        | none => (some { noncorr := some [matchedElement], corr := some dbI' }, s')
      else if isL3EventF matchedElement.element && isL2EventF dbI.element then
        let correlatedEvent := l3MergedElement matchedElement dbI
        let matched' := { matchedElement with element := correlatedEvent }
        let s' := { s with db := s.db.eraseP (sessionMatch dbI) }
        match collectedItems with
        | some c => (some { noncorr := some (c ++ [dbI]), corr := some matched' }, s')
        | none => (some { noncorr := some [dbI], corr := some matched' }, s')
      else
        match collectedItems with
        | some c => (some { noncorr := some (c ++ [dbI]), corr := none }, s)
        | none => (some { noncorr := some [dbI], corr := none }, s)

/-- A LogRecord batch as emitted by the framework (EmitterInterface of
emitter.ts), generic in the payload type. -/
structure EmitterInterface (T : Type) where
  source : String
  logType : Option String
  message : Option T
deriving DecidableEq, Repr

/-- An element of a plain output bucket built by process: the discard path
pushes the raw payload element unchanged, while the noncorr path pushes the
whole DbItem wrapper. -/
inductive PlainOut where
  | raw (v : JsVal)
  | item (d : DbItem)
deriving DecidableEq, Repr

/-- The plainResponse object of process and the reduce accumulator of flush:
a string-keyed record in insertion order. -/
abbrev PlainMap := List (String × EmitterInterface (List PlainOut))

/-- Pushes one value into the bucket of the given key, creating the bucket
when absent, exactly as the push-or-create pattern of process and flush. -/
def pushBucket (m : PlainMap) (k : String) (lt : Option String) (v : PlainOut) : PlainMap :=
  if m.any (fun p => p.1 == k) then
    m.map (fun p =>
      if p.1 == k then (p.1, { p.2 with message := some ((p.2.message.getD []) ++ [v]) }) else p)
  else
    m ++ [(k, { source := k, logType := lt, message := some [v] })]

/-- The ProcResponse record of l2correlator.ts. -/
structure ProcResponse where
  plain : List (EmitterInterface (List PlainOut))
  correlated : Option (EmitterInterface (List Fields))
deriving DecidableEq, Repr

/-- The forEach body of process, iterated over the payload elements.  A
non-object element makes the in operator of isEvent throw, which aborts the
loop; the Store state reached so far is kept, as the JavaScript exception
leaves the mutated this.db behind. -/
def processElems (src : String) (lt : Option String) (now : Int) :
    List JsVal → PlainMap → Option (EmitterInterface (List Fields)) → CorrState →
    Except String (PlainMap × Option (EmitterInterface (List Fields))) × CorrState
  | [], pr, cr, s => (Except.ok (pr, cr), s)
  | x :: rest, pr, cr, s =>
    match x with
    | JsVal.prim _ =>
      -- isEvent throws on a non-object; the remaining elements are not visited
      (Except.error "TypeError: cannot use in operator on a non-object", s)
    | JsVal.obj fs =>
      if isEventF fs then
        match parseInt10 (jsGetD fs "time_generated") with
        | some ts =>
          let dbI : DbItem := { ts := ts, element := fs, source := src, logType := lt }
          let r := update s now dbI
          let s' := r.2
          match r.1 with
          | none => processElems src lt now rest pr cr s'
          | some resp =>
            let pr' := match resp.noncorr with
              | some ys => ys.foldl (fun acc y => pushBucket acc y.source y.logType (PlainOut.item y)) pr
              | none => pr
            let cr' := match resp.corr with
              | none => cr
              | some c =>
                match cr with
                | some co => some { co with message := some ((co.message.getD []) ++ [c.element]) }
                | none => some { source := src, logType := lt, message := some [c.element] }
            processElems src lt now rest pr' cr' s'
        | none =>
          processElems src lt now rest (pushBucket pr src lt (PlainOut.raw x)) cr
            { s with discardedEvents := s.discardedEvents + 1 }
      else
        processElems src lt now rest (pushBucket pr src lt (PlainOut.raw x)) cr
          { s with discardedEvents := s.discardedEvents + 1 }

/-- Embeds the public process method. -/
def process (s : CorrState) (now : Int) (e : EmitterInterface (List JsVal)) :
    Except String ProcResponse × CorrState :=
  match e.message with
  | some msg =>
    let pr0 : PlainMap := [(e.source, { source := e.source, logType := e.logType, message := some [] })]
    match processElems e.source e.logType now msg pr0 none s with
    | (Except.ok (pr, cr), s') =>
      (Except.ok { plain := pr.map (fun p => p.2), correlated := cr }, s')
    | (Except.error m, s') => (Except.error m, s')
  | none =>
    (Except.ok { plain := [{ source := e.source, logType := e.logType, message := none }],
                 correlated := none }, s)

/-- Embeds the public flush method: the reduce groups the raw elements of
every Store entry by source, then the Store is emptied. -/
def flush (s : CorrState) : ProcResponse × CorrState :=
  let mapped : PlainMap := s.db.foldl
    (fun acc item => pushBucket acc item.source item.logType (PlainOut.raw (JsVal.obj item.element)))
    []
  ({ plain := mapped.map (fun p => p.2), correlated := none }, { s with db := [] })

/-- The L2correlation record of emitter.ts; mac and macstc stand for the
extended-traffic-log-mac and extended-traffic-log-mac-stc fields. -/
structure L2correlation where
  time_generated : String
  sessionid : String
  src : String
  dst : String
  mac : String
  macstc : String
deriving DecidableEq, Repr

/-- The Emitter state: per-topic subscriber presence flags (the notifier
record), the correlation switch and engine, and the emission counters. -/
structure EmitterState where
  notifyEvent : Bool
  notifyPcap : Bool
  notifyCorr : Bool
  l2enable : Bool
  l2engine : CorrState
  eventsEmitted : Nat
  correlationEmitted : Nat
deriving DecidableEq, Repr

/-- Embeds emitCorr: counts the batch elements, then emits the projection of
each CorrelatedEvent onto the L2correlation field set.  Line 310 of
emitter.ts populates dst from x.src. -/
def emitCorr (st : EmitterState) (e : EmitterInterface (List Fields)) :
    List (EmitterInterface (List L2correlation)) × EmitterState :=
  match e.message with
  | some msg =>
    ([{ source := e.source, logType := e.logType,
        message := some (msg.map (fun x =>
          { time_generated := jsGetD x "time_generated"
            sessionid := jsGetD x "sessionid"
            src := jsGetD x "src"
            dst := jsGetD x "src"
            mac := jsGetD x "extended-traffic-log-mac"
            macstc := jsGetD x "extended-traffic-log-mac-stc" })) }],
     { st with correlationEmitted := st.correlationEmitted + msg.length })
  | none => ([], st)

/-- Embeds emitEvent: only the eventsEmitted counter changes; the emitted
batch itself is reported by emitMessage. -/
def emitEvent (st : EmitterState) (b : EmitterInterface (List PlainOut)) : EmitterState :=
  match b.message with
  | some m => { st with eventsEmitted := st.eventsEmitted + m.length }
  | none => st

/-- A correlated batch as it travels on the EVENT_EVENT topic: the very same
record, with each CorrelatedEvent element viewed as a plain object. -/
def corrToEventBatch (c : EmitterInterface (List Fields)) : EmitterInterface (List PlainOut) :=
  { source := c.source, logType := c.logType,
    message := c.message.map (fun l => l.map (fun fs => PlainOut.raw (JsVal.obj fs))) }

/-- An incoming batch viewed as an EVENT_EVENT payload when correlation is
disabled. -/
def rawBatch (e : EmitterInterface (List JsVal)) : EmitterInterface (List PlainOut) :=
  { source := e.source, logType := e.logType,
    message := e.message.map (fun l => l.map PlainOut.raw) }

/-- The batches delivered by one emitMessage call, per topic, in delivery
order. -/
structure EmitResult where
  corrEmissions : List (EmitterInterface (List L2correlation))
  eventEmissions : List (EmitterInterface (List PlainOut))
deriving DecidableEq, Repr

/-- Embeds emitMessage of emitter.ts (the PCAP_EVENT fan-out is independent
of correlation and outside the modelled core).  When correlation is enabled
the batch goes through the engine; a correlated result is delivered to the
CORR_EVENT topic when subscribed, and on the EVENT_EVENT topic the
correlated batch is delivered first, followed by the plain batches. -/
def emitMessage (st : EmitterState) (now : Int) (e : EmitterInterface (List JsVal)) :
    Except String EmitResult × EmitterState :=
  if st.l2enable then
    match process st.l2engine now e with
    | (Except.error m, s2) => (Except.error m, { st with l2engine := s2 })
    | (Except.ok resp, s2) =>
      let st1 := { st with l2engine := s2 }
      let cpair :=
        match resp.correlated with
        | some c => if st1.notifyCorr then emitCorr st1 c else ([], st1)
        | none => ([], st1)
      let corrEms := cpair.1
      let st2 := cpair.2
      let evBatches : List (EmitterInterface (List PlainOut)) :=
        match resp.correlated with
        | some c => corrToEventBatch c :: resp.plain
        | none => resp.plain
      if st2.notifyEvent then
        (Except.ok { corrEmissions := corrEms, eventEmissions := evBatches },
         evBatches.foldl emitEvent st2)
      else
        (Except.ok { corrEmissions := corrEms, eventEmissions := [] }, st2)
  else
    if st.notifyEvent then
      (Except.ok { corrEmissions := [], eventEmissions := [rawBatch e] },
       emitEvent st (rawBatch e))
    else
      (Except.ok { corrEmissions := [], eventEmissions := [] }, st)

/-- One public-facing operation on a MacCorrelator instance (update and the
eviction sweep are private but are included for strength). -/
inductive CorrOp where
  | upd (now : Int) (dbI : DbItem)
  | proc (now : Int) (e : EmitterInterface (List JsVal))
  | evict (now : Int)
  | fl
deriving Repr

/-- State reached by one operation. -/
def applyOp (s : CorrState) : CorrOp → CorrState
  | CorrOp.upd now dbI => (update s now dbI).2
  | CorrOp.proc now e => (process s now e).2
  | CorrOp.evict now => (gb s now).2
  | CorrOp.fl => (flush s).2

/-- State reached by a sequence of operations. -/
def runOps (s : CorrState) : List CorrOp → CorrState
  | [] => s
  | op :: rest => runOps (applyOp s op) rest

/-- No two Store entries carry the same sessionid field. -/
def distinctSessions (db : List DbItem) : Prop :=
  db.Pairwise (fun a b => jsGet a.element "sessionid" ≠ jsGet b.element "sessionid")

/-- A sequence of update calls, each with its own oracle time. -/
def runUpdates (s : CorrState) (l : List (Int × DbItem)) : CorrState :=
  l.foldl (fun s p => (update s p.1 p.2).2) s

/-- Payload of the C6 witness: objects only, one with no recognizable
fields and one with a non-numeric timestamp. -/
def c6GoodBatch : EmitterInterface (List JsVal) :=
  { source := "s", logType := none,
    message := some [JsVal.obj [("foo", "bar")],
                     JsVal.obj [("time_generated", "abc"), ("sessionid", "S")]] }

/-- Message of the bucket stored under a key of the plainResponse record. -/
def bucketMsg (pr : PlainMap) (k : String) : Option (List PlainOut) :=
  (pr.find? (fun p => p.1 == k)).map (fun p => p.2.message.getD [])

/-- Buckets are stored under their own source. -/
def wfMap (pr : PlainMap) : Prop := ∀ p ∈ pr, p.2.source = p.1

/-- Buckets always carry a message array. -/
def wfMsg (pr : PlainMap) : Prop := ∀ p ∈ pr, p.2.message.isSome = true

/-- The discard test of process: the element is not an Event or its
time_generated does not parse as an integer. -/
def malformed : JsVal → Bool
  | JsVal.obj fs => !(isEventF fs) || (parseInt10 (jsGetD fs "time_generated")).isNone
  | JsVal.prim _ => true

/-- The raw payload elements of a bucket message, in order; the DbItem
wrappers coming from noncorr results are skipped. -/
def rawsOnly (l : List PlainOut) : List JsVal :=
  l.filterMap (fun po => match po with | PlainOut.raw v => some v | PlainOut.item _ => none)

/-- Message of the first output batch carrying the given source. -/
def sourceBucket (l : List (EmitterInterface (List PlainOut))) (k : String) :
    Option (List PlainOut) :=
  (l.find? (fun b => b.source == k)).bind (fun b => b.message)

/-- Raw payload elements of the output batch carrying the given source. -/
def plainRaws (l : List (EmitterInterface (List PlainOut))) (k : String) : List JsVal :=
  rawsOnly ((sourceBucket l k).getD [])

/-- Payload of the C7 witness: one element lacking time_generated, one valid
correlatable event, one with a non-numeric timestamp. -/
def c7GoodMsg : List JsVal :=
  [JsVal.obj [("sessionid", "S")],
   JsVal.obj [("time_generated", "12"), ("sessionid", "T"), ("src", "a"), ("dst", "b")],
   JsVal.obj [("time_generated", "zz"), ("sessionid", "U")]]

/-- Correlator of the C1 scenario: ageoutSeconds 120, absolute time,
gcMultiplier 0. -/
def c1Correlator : CorrState := mkCorrelator 120 true 0

/-- First C1 event, buffered at time 1000. -/
def c1First : DbItem :=
  { ts := 1000
    element := [("time_generated", "1000"), ("sessionid", "A"),
                ("src", "1.1.1.1"), ("dst", "2.2.2.2")]
    source := "s", logType := none }

/-- Second C1 event, arriving at time 1000 + 120 + 1. -/
def c1Second : DbItem :=
  { ts := 1121
    element := [("time_generated", "1121"), ("sessionid", "B"),
                ("src", "3.3.3.3"), ("dst", "4.4.4.4")]
    source := "s", logType := none }

/-- CorrelatedEvent of the C3 scenario, with distinct src and dst. -/
def c3Event : Fields :=
  [("time_generated", "101"), ("sessionid", "S"), ("src", "1.1.1.1"), ("dst", "2.2.2.2"),
   ("extended-traffic-log-mac", "m1"), ("extended-traffic-log-mac-stc", "m2")]

/-- Emitter state of the C3 scenario. -/
def c3Emitter : EmitterState :=
  { notifyEvent := true, notifyPcap := false, notifyCorr := true, l2enable := true,
    l2engine := mkCorrelator 120 false 0, eventsEmitted := 0, correlationEmitted := 0 }

/-- Correlator of the C4 counterexample. -/
def c4State : CorrState := mkCorrelator 120 false 0

/-- First-arriving C4 event: an L3 event with time_generated 100. -/
def c4L3 : DbItem :=
  { ts := 100
    element := [("time_generated", "100"), ("sessionid", "S"), ("src", "a"), ("dst", "b")]
    source := "s", logType := none }

/-- Second-arriving (triggering) C4 event: an L2 event with
time_generated 101. -/
def c4L2 : DbItem :=
  { ts := 101
    element := [("time_generated", "101"), ("sessionid", "S"),
                ("extended-traffic-log-mac", "m1"), ("extended-traffic-log-mac-stc", "m2")]
    source := "s", logType := none }

/-- Correlator of the C5 counterexample. -/
def c5State : CorrState := mkCorrelator 120 false 0

/-- First C5 event: an L2 event with sessionid S. -/
def c5L2a : DbItem :=
  { ts := 100
    element := [("time_generated", "100"), ("sessionid", "S"),
                ("extended-traffic-log-mac", "x1"), ("extended-traffic-log-mac-stc", "x2")]
    source := "s", logType := none }

/-- Second C5 event: another L2 event with the same sessionid S, so no
structural pairing applies. -/
def c5L2b : DbItem :=
  { ts := 101
    element := [("time_generated", "101"), ("sessionid", "S"),
                ("extended-traffic-log-mac", "y1"), ("extended-traffic-log-mac-stc", "y2")]
    source := "s", logType := none }

/-- Batch of the C6 counterexample: its payload holds a non-object value. -/
def c6Batch : EmitterInterface (List JsVal) :=
  { source := "s", logType := none, message := some [JsVal.prim "42"] }

/-- Batch of the C7 counterexample: a non-object payload element, which in
particular lacks sessionid and time_generated. -/
def c7Batch : EmitterInterface (List JsVal) :=
  { source := "s", logType := none, message := some [JsVal.prim "oops"] }

/-- State of the C4 witness after buffering the L3 event. -/
def c4S1 : CorrState := (update c4State 100 c4L3).2

/-- CorrelatedEvent produced by the C4 witness correlation. -/
def c4Corr : DbItem :=
  { ts := 100
    element := [("time_generated", "100"), ("sessionid", "S"), ("src", "a"), ("dst", "b"),
                ("extended-traffic-log-mac", "m1"), ("extended-traffic-log-mac-stc", "m2")]
    source := "s", logType := none }

/-- Update response of the C4 witness correlation. -/
def c4Resp : UpdateResp := { noncorr := some [c4L2], corr := some c4Corr }

/-- Correlator state after the C4 witness correlation. -/
def c4SFinal : CorrState := (update c4S1 101 c4L2).2

/-- Correlator state of the C5 witness before the colliding update. -/
def c5wS0 : CorrState := (update (mkCorrelator 120 false 0) 100 c5L2a).2

/-- Correlator state of the C5 witness after the eviction sweep of the
colliding update. -/
def c5wS1 : CorrState := (gb (bookkeep c5wS0 c5L2b) 101).2

/-- Pending L2 event of the C10 witness. -/
def c10L2 : DbItem :=
  { ts := 100
    element := [("time_generated", "100"), ("sessionid", "Z"),
                ("extended-traffic-log-mac", "aa"), ("extended-traffic-log-mac-stc", "bb")]
    source := "es", logType := none }

/-- Correlation engine of the C10 witness, holding the pending L2 event. -/
def c10Engine : CorrState := (update (mkCorrelator 120 false 0) 100 c10L2).2

/-- Incoming batch of the C10 witness: an L3 event with the same session. -/
def c10Batch : EmitterInterface (List JsVal) :=
  { source := "job1", logType := none,
    message := some [JsVal.obj [("time_generated", "101"), ("sessionid", "Z"),
                                ("src", "p"), ("dst", "q")]] }

/-- CorrelatedEvent fields produced by the C10 witness. -/
def c10CorrItem : Fields :=
  [("time_generated", "101"), ("sessionid", "Z"), ("src", "p"), ("dst", "q"),
   ("extended-traffic-log-mac", "aa"), ("extended-traffic-log-mac-stc", "bb")]

/-- Correlated batch of the C10 witness. -/
def c10Corr : EmitterInterface (List Fields) :=
  { source := "job1", logType := none, message := some [c10CorrItem] }

/-- Process response of the C10 witness. -/
def c10Resp : ProcResponse :=
  { plain := [{ source := "job1", logType := none, message := some [] },
              { source := "es", logType := none, message := some [PlainOut.item c10L2] }],
    correlated := some c10Corr }

/-- Engine state after the C10 witness batch. -/
def c10S2 : CorrState := (process c10Engine 101 c10Batch).2

/-- Emitter state of the C10 witness: all relevant topics subscribed. -/
def c10Emitter : EmitterState :=
  { notifyEvent := true, notifyPcap := false, notifyCorr := true, l2enable := true,
    l2engine := c10Engine, eventsEmitted := 0, correlationEmitted := 0 }

/-! Theorems. -/

theorem distinctSessions_perm {l₁ l₂ : List DbItem} (h : l₁.Perm l₂)
    (hd : distinctSessions l₁) : distinctSessions l₂ :=
  (h.pairwise_iff (fun hab e => hab e.symm)).mp hd

theorem distinctSessions_gb (s : CorrState) (now : Int) (h : distinctSessions s.db) :
    distinctSessions (gb s now).2.db := by
  have hsorted : distinctSessions (sortByTs s.db) :=
    distinctSessions_perm (List.perm_insertionSort _ _).symm h
  simp only [gb]
  by_cases h1 : s.gbAttempt + 1 > s.gbMultiplier
  · simp only [if_pos h1]
    by_cases h2 : goPointer ((if s.absoluteTime then now else s.lastTs) - s.ageout)
        (sortByTs s.db) 0 ≠ 0
    · simp only [if_pos h2]
      exact List.Pairwise.sublist (List.drop_sublist _ _) hsorted
    · simp only [if_neg h2]
      exact hsorted
  · simp only [if_neg h1]
    exact h

theorem distinctSessions_update (s : CorrState) (now : Int) (dbI : DbItem)
    (h : distinctSessions s.db) : distinctSessions (update s now dbI).2.db := by
  have hb : (bookkeep s dbI).db = s.db := by
    simp only [bookkeep]; split_ifs <;> rfl
  have hgb : distinctSessions (gb (bookkeep s dbI) now).2.db := by
    apply distinctSessions_gb
    rw [hb]; exact h
  simp only [update]
  split
  · split <;> exact hgb
  · split
    · rename_i hfind
      have hnomatch : ∀ x ∈ (gb (bookkeep s dbI) now).2.db,
          jsGet x.element "sessionid" ≠ jsGet dbI.element "sessionid" := by
        intro x hx
        have := List.find?_eq_none.mp hfind x hx
        exact beq_eq_false_iff_ne.mp (by
          cases hbe : sessionMatch dbI x
          · simp [sessionMatch] at hbe ⊢; exact hbe
          · exact absurd hbe this)
      split
      · exact List.pairwise_append.mpr
          ⟨hgb, List.pairwise_singleton _ _, fun a ha b hb => by
            simp at hb; subst hb; exact hnomatch a ha⟩
      · exact List.pairwise_append.mpr
          ⟨hgb, List.pairwise_singleton _ _, fun a ha b hb => by
            simp at hb; subst hb; exact hnomatch a ha⟩
    · rename_i m hfind
      split_ifs with hc1 hc2
      · split <;> exact List.Pairwise.sublist (List.eraseP_sublist _) hgb
      · split <;> exact List.Pairwise.sublist (List.eraseP_sublist _) hgb
      · split <;> exact hgb

theorem distinctSessions_processElems (src : String) (lt : Option String) (now : Int) :
    ∀ (elems : List JsVal) (pr : PlainMap) (cr : Option (EmitterInterface (List Fields)))
      (s : CorrState), distinctSessions s.db →
      distinctSessions (processElems src lt now elems pr cr s).2.db := by
  intro elems
  induction elems with
  | nil => intro pr cr s h; exact h
  | cons x rest ih =>
    intro pr cr s h
    cases x with
    | prim v => exact h
    | obj fs =>
      simp only [processElems]
      split
      · split
        · rename_i ts hts
          have hu := distinctSessions_update s now
            { ts := ts, element := fs, source := src, logType := lt } h
          split
          · exact ih _ _ _ hu
          · exact ih _ _ _ hu
        · exact ih _ _ _ h
      · exact ih _ _ _ h

theorem distinctSessions_process (s : CorrState) (now : Int)
    (e : EmitterInterface (List JsVal)) (h : distinctSessions s.db) :
    distinctSessions (process s now e).2.db := by
  simp only [process]
  split
  · rename_i msg hmsg
    have hp := distinctSessions_processElems e.source e.logType now msg
      [(e.source, { source := e.source, logType := e.logType, message := some [] })] none s h
    split
    · rename_i pr cr s' heq; rw [heq] at hp; exact hp
    · rename_i m s' heq; rw [heq] at hp; exact hp
  · exact h

theorem distinctSessions_flush (s : CorrState) : distinctSessions (flush s).2.db :=
  List.Pairwise.nil

theorem distinctSessions_runOps (ops : List CorrOp) :
    ∀ s : CorrState, distinctSessions s.db → distinctSessions (runOps s ops).db := by
  induction ops with
  | nil => intro s h; exact h
  | cons op rest ih =>
    intro s h
    apply ih
    cases op with
    | upd now dbI => exact distinctSessions_update s now dbI h
    | proc now e => exact distinctSessions_process s now e h
    | evict now => exact distinctSessions_gb s now h
    | fl => exact distinctSessions_flush s

/-- C2: starting from a freshly constructed MacCorrelator, no sequence of
update, process, eviction and flush operations can leave the Store with two
pending entries whose sessionid fields are equal: insertion happens only
when the findIndex lookup fails, and every other Store mutation removes or
permutes entries. -/
theorem C2_sessionid_unique_invariant (ageout : Int) (absoluteTime : Bool)
    (gbMultiplier : Nat) (ops : List CorrOp) :
    distinctSessions (runOps (mkCorrelator ageout absoluteTime gbMultiplier) ops).db :=
  distinctSessions_runOps ops _ List.Pairwise.nil

theorem bookkeep_gbAttempt (s : CorrState) (dbI : DbItem) :
    (bookkeep s dbI).gbAttempt = s.gbAttempt := by
  simp only [bookkeep]; split_ifs <;> rfl

theorem bookkeep_gbMultiplier (s : CorrState) (dbI : DbItem) :
    (bookkeep s dbI).gbMultiplier = s.gbMultiplier := by
  simp only [bookkeep]; split_ifs <;> rfl

theorem gb_gbAttempt (s : CorrState) (now : Int) :
    (gb s now).2.gbAttempt = if s.gbAttempt + 1 > s.gbMultiplier then 0 else s.gbAttempt + 1 := by
  simp only [gb]; split_ifs <;> rfl

theorem gb_gbMultiplier (s : CorrState) (now : Int) :
    (gb s now).2.gbMultiplier = s.gbMultiplier := by
  simp only [gb]; split_ifs <;> rfl

theorem update_state_gbAttempt_eq_gb (s : CorrState) (now : Int) (dbI : DbItem) :
    (update s now dbI).2.gbAttempt = (gb (bookkeep s dbI) now).2.gbAttempt := by
  simp only [update]
  split
  · split <;> rfl
  · split
    · split <;> rfl
    · split_ifs <;> split <;> rfl

theorem update_state_gbMultiplier_eq_gb (s : CorrState) (now : Int) (dbI : DbItem) :
    (update s now dbI).2.gbMultiplier = (gb (bookkeep s dbI) now).2.gbMultiplier := by
  simp only [update]
  split
  · split <;> rfl
  · split
    · split <;> rfl
    · split_ifs <;> split <;> rfl

theorem update_gbAttempt (s : CorrState) (now : Int) (dbI : DbItem) :
    (update s now dbI).2.gbAttempt =
      if s.gbAttempt + 1 > s.gbMultiplier then 0 else s.gbAttempt + 1 := by
  have hgb := gb_gbAttempt (bookkeep s dbI) now
  rw [bookkeep_gbAttempt, bookkeep_gbMultiplier] at hgb
  exact (update_state_gbAttempt_eq_gb s now dbI).trans hgb

theorem update_gbMultiplier (s : CorrState) (now : Int) (dbI : DbItem) :
    (update s now dbI).2.gbMultiplier = s.gbMultiplier := by
  have hgb := (gb_gbMultiplier (bookkeep s dbI) now).trans (bookkeep_gbMultiplier s dbI)
  exact (update_state_gbMultiplier_eq_gb s now dbI).trans hgb

theorem runUpdates_attempt (N : Nat) :
    ∀ (l : List (Int × DbItem)) (s : CorrState), s.gbMultiplier = N → s.gbAttempt ≤ N →
      (runUpdates s l).gbMultiplier = N ∧
      (runUpdates s l).gbAttempt = (s.gbAttempt + l.length) % (N + 1) := by
  intro l
  induction l with
  | nil =>
    intro s hm ha
    refine ⟨hm, ?_⟩
    simp only [runUpdates, List.foldl_nil, List.length_nil, Nat.add_zero]
    exact (Nat.mod_eq_of_lt (Nat.lt_succ_of_le ha)).symm
  | cons p rest ih =>
    intro s hm ha
    have hstep : (update s p.1 p.2).2.gbAttempt = (s.gbAttempt + 1) % (N + 1) := by
      rw [update_gbAttempt, hm]
      by_cases hc : s.gbAttempt + 1 > N
      · have hEq : s.gbAttempt = N := le_antisymm ha (by omega)
        rw [if_pos hc, hEq, Nat.mod_self]
      · rw [if_neg hc, Nat.mod_eq_of_lt (by omega)]
    have hm' : (update s p.1 p.2).2.gbMultiplier = N := (update_gbMultiplier s p.1 p.2).trans hm
    have ha' : (update s p.1 p.2).2.gbAttempt ≤ N := by
      rw [hstep]
      exact Nat.lt_succ_iff.mp (Nat.mod_lt _ (Nat.succ_pos N))
    obtain ⟨h1, h2⟩ := ih (update s p.1 p.2).2 hm' ha'
    have hrun : runUpdates s (p :: rest) = runUpdates (update s p.1 p.2).2 rest := by
      simp [runUpdates]
    refine ⟨by rw [hrun]; exact h1, ?_⟩
    rw [hrun, h2, hstep, Nat.mod_add_mod]
    congr 1
    simp [List.length_cons]
    omega

/-- C8: the attempt counter of gb increments on each update call, the sweep
branch executes only once the counter exceeds gcMultiplier, and it then
resets to zero, so after any k update calls from a fresh correlator the
counter equals k mod (N + 1), the next call resets it to zero exactly when
k + 1 is a multiple of N + 1, and the sweep branch condition of gb holds on
that next call exactly in the same case: the sweep executes on exactly
every (N + 1)-th call and never more frequently. -/
theorem C8_gc_throttling (ageout : Int) (absoluteTime : Bool) (N : Nat)
    (l : List (Int × DbItem)) (now : Int) (dbI : DbItem) :
    (runUpdates (mkCorrelator ageout absoluteTime N) l).gbMultiplier = N ∧
    (runUpdates (mkCorrelator ageout absoluteTime N) l).gbAttempt = l.length % (N + 1) ∧
    ((update (runUpdates (mkCorrelator ageout absoluteTime N) l) now dbI).2.gbAttempt = 0 ↔
      (l.length + 1) % (N + 1) = 0) ∧
    ((runUpdates (mkCorrelator ageout absoluteTime N) l).gbAttempt + 1 > N ↔
      (l.length + 1) % (N + 1) = 0) := by
  obtain ⟨hm, ha⟩ := runUpdates_attempt N l (mkCorrelator ageout absoluteTime N) rfl (Nat.zero_le N)
  have ha2 : (runUpdates (mkCorrelator ageout absoluteTime N) l).gbAttempt =
      l.length % (N + 1) := by
    rw [ha]
    show (0 + l.length) % (N + 1) = l.length % (N + 1)
    rw [Nat.zero_add]
  clear ha
  rename' ha2 => ha
  have hmod : (l.length % (N + 1) + 1) % (N + 1) = (l.length + 1) % (N + 1) :=
    Nat.mod_add_mod l.length (N + 1) 1
  have hr : l.length % (N + 1) < N + 1 := Nat.mod_lt _ (Nat.succ_pos N)
  refine ⟨hm, ha, ?_, ?_⟩
  · rw [update_gbAttempt, hm, ha]
    by_cases hc : l.length % (N + 1) + 1 > N
    · have hEq : l.length % (N + 1) = N := by omega
      rw [if_pos hc, ← hmod, hEq, Nat.mod_self]
    · have hlt : l.length % (N + 1) + 1 < N + 1 := by omega
      rw [if_neg hc, ← hmod, Nat.mod_eq_of_lt hlt]
  · rw [ha, ← hmod]
    by_cases hc : l.length % (N + 1) + 1 > N
    · have hEq : l.length % (N + 1) = N := by omega
      rw [hEq, Nat.mod_self]
      omega
    · have hlt : l.length % (N + 1) + 1 < N + 1 := by omega
      rw [Nat.mod_eq_of_lt hlt]
      omega

theorem processElems_ok (src : String) (lt : Option String) (now : Int) :
    ∀ (elems : List JsVal) (pr : PlainMap) (cr : Option (EmitterInterface (List Fields)))
      (s : CorrState), (∀ x ∈ elems, (isEvent x).isOk = true) →
      (processElems src lt now elems pr cr s).1.isOk = true := by
  intro elems
  induction elems with
  | nil => intro pr cr s h; rfl
  | cons x rest ih =>
    intro pr cr s h
    have hrest : ∀ y ∈ rest, (isEvent y).isOk = true :=
      fun y hy => h y (List.mem_cons_of_mem _ hy)
    cases x with
    | prim v =>
      have := h (JsVal.prim v) (List.mem_cons_self _ _)
      simp [isEvent, Except.isOk, Except.toBool] at this
    | obj fs =>
      simp only [processElems]
      split
      · split
        · split
          · exact ih _ _ _ hrest
          · exact ih _ _ _ hrest
        · exact ih _ _ _ hrest
      · exact ih _ _ _ hrest

/-- C6 (amended): process runs to completion whenever every payload element
is a value the in operator accepts (an object), regardless of missing
fields or non-numeric timestamps; a non-object payload element instead
raises a TypeError from isEvent, as C6_nonobject_throws shows. -/
theorem C6_object_payload_no_throw (s : CorrState) (now : Int)
    (e : EmitterInterface (List JsVal))
    (h : ∀ x ∈ e.message.getD [], (isEvent x).isOk = true) :
    (process s now e).1.isOk = true := by
  simp only [process]
  split
  · rename_i msg hmsg
    rw [hmsg] at h
    simp only [Option.getD_some] at h
    have hp := processElems_ok e.source e.logType now msg
      [(e.source, { source := e.source, logType := e.logType, message := some [] })] none s h
    split
    · rfl
    · rename_i m s' heq
      rw [heq] at hp
      simp [Except.isOk, Except.toBool] at hp
  · rfl

/-- Witness for C6: the amended theorem applied at a concrete batch. -/
theorem C6_object_payload_no_throw_witness :
    (∀ x ∈ c6GoodBatch.message.getD [], (isEvent x).isOk = true) ∧
    (process (mkCorrelator 120 false 0) 5 c6GoodBatch).1.isOk = true :=
  ⟨by decide, C6_object_payload_no_throw (mkCorrelator 120 false 0) 5 c6GoodBatch (by decide)⟩

theorem wfMap_pushBucket {pr : PlainMap} (h : wfMap pr) (k : String) (lt : Option String)
    (v : PlainOut) : wfMap (pushBucket pr k lt v) := by
  intro q hq
  simp only [pushBucket] at hq
  by_cases hany : pr.any (fun p => p.1 == k)
  · rw [if_pos hany] at hq
    obtain ⟨p, hp, hpq⟩ := List.mem_map.mp hq
    by_cases hpk : p.1 == k
    · rw [if_pos hpk] at hpq
      subst hpq
      exact h p hp
    · rw [if_neg hpk] at hpq
      subst hpq
      exact h p hp
  · rw [if_neg hany] at hq
    rcases List.mem_append.mp hq with hin | hin
    · exact h q hin
    · simp at hin
      subst hin
      rfl

theorem wfMsg_pushBucket {pr : PlainMap} (h : wfMsg pr) (k : String) (lt : Option String)
    (v : PlainOut) : wfMsg (pushBucket pr k lt v) := by
  intro q hq
  simp only [pushBucket] at hq
  by_cases hany : pr.any (fun p => p.1 == k)
  · rw [if_pos hany] at hq
    obtain ⟨p, hp, hpq⟩ := List.mem_map.mp hq
    by_cases hpk : p.1 == k
    · rw [if_pos hpk] at hpq
      subst hpq
      rfl
    · rw [if_neg hpk] at hpq
      subst hpq
      exact h p hp
  · rw [if_neg hany] at hq
    rcases List.mem_append.mp hq with hin | hin
    · exact h q hin
    · simp at hin
      subst hin
      rfl

theorem bucketMsg_pushBucket_self (pr : PlainMap) (k : String) (lt : Option String)
    (v : PlainOut) :
    bucketMsg (pushBucket pr k lt v) k = some ((bucketMsg pr k).getD [] ++ [v]) := by
  simp only [pushBucket, bucketMsg]
  by_cases hany : pr.any (fun p => p.1 == k)
  · rw [if_pos hany]
    rw [List.find?_map]
    have hpred : ((fun p : String × EmitterInterface (List PlainOut) => p.1 == k) ∘
        (fun p : String × EmitterInterface (List PlainOut) =>
          if p.1 == k then (p.1, { p.2 with message := some ((p.2.message.getD []) ++ [v]) })
          else p)) = fun p => p.1 == k := by
      funext p
      by_cases hp : p.1 = k <;> simp [hp]
    rw [hpred]
    have hsome : (pr.find? (fun p => p.1 == k)).isSome = true := by
      rw [List.find?_isSome]
      exact List.any_eq_true.mp hany
    obtain ⟨q, hq⟩ := Option.isSome_iff_exists.mp hsome
    have hq1 := List.find?_some hq
    rw [hq]
    have hq1' : q.1 = k := by simpa using hq1
    simp [hq1, hq1']
  · rw [if_neg hany]
    rw [List.find?_append]
    have hnone : pr.find? (fun p => p.1 == k) = none := by
      rw [List.find?_eq_none]
      intro p hp hpk
      rw [List.any_eq_true] at hany
      exact hany ⟨p, hp, hpk⟩
    rw [hnone]
    simp

theorem bucketMsg_pushBucket_ne (pr : PlainMap) (k k' : String) (lt : Option String)
    (v : PlainOut) (h : k' ≠ k) :
    bucketMsg (pushBucket pr k lt v) k' = bucketMsg pr k' := by
  simp only [pushBucket, bucketMsg]
  by_cases hany : pr.any (fun p => p.1 == k)
  · rw [if_pos hany]
    rw [List.find?_map]
    have hpred : ((fun p : String × EmitterInterface (List PlainOut) => p.1 == k') ∘
        (fun p : String × EmitterInterface (List PlainOut) =>
          if p.1 == k then (p.1, { p.2 with message := some ((p.2.message.getD []) ++ [v]) })
          else p)) = fun p => p.1 == k' := by
      funext p
      by_cases hp : p.1 = k <;> simp [hp]
    rw [hpred]
    cases hf : pr.find? (fun p => p.1 == k') with
    | none => rfl
    | some q =>
      have hq1 := List.find?_some hf
      have hq1' : q.1 = k' := by simpa using hq1
      have hqk : (q.1 == k) = false := by
        rw [hq1']
        exact beq_eq_false_iff_ne.mpr h
      have hqk' : ¬ q.1 = k := by simpa using hqk
      simp [hqk, hqk']
  · rw [if_neg hany]
    rw [List.find?_append]
    have hkk : (k == k') = false := beq_eq_false_iff_ne.mpr (fun e => h e.symm)
    have htail : ([(k, { source := k, logType := lt, message := some [v] })] :
        PlainMap).find? (fun p => p.1 == k') = none := by
      simp [List.find?, hkk]
    rw [htail, Option.or_none]

theorem bucketMsg_isSome_pushBucket {pr : PlainMap} {k' : String}
    (h : (bucketMsg pr k').isSome = true) (k : String) (lt : Option String) (v : PlainOut) :
    (bucketMsg (pushBucket pr k lt v) k').isSome = true := by
  by_cases hk : k' = k
  · subst hk
    rw [bucketMsg_pushBucket_self]
    rfl
  · rw [bucketMsg_pushBucket_ne pr k k' lt v hk]
    exact h

/-- Characterization of a fold of per-item bucket pushes over the map. -/
theorem bucketMsg_foldl_push (f : DbItem → PlainOut) (k : String) :
    ∀ (items : List DbItem) (pr : PlainMap),
      bucketMsg (items.foldl (fun acc i => pushBucket acc i.source i.logType (f i)) pr) k =
        if (bucketMsg pr k).isSome || items.any (fun i => i.source == k) then
          some ((bucketMsg pr k).getD [] ++ (items.filter (fun i => i.source == k)).map f)
        else none := by
  intro items
  induction items with
  | nil =>
    intro pr
    cases ho : bucketMsg pr k with
    | none => simp [ho]
    | some l => simp [ho]
  | cons i rest ih =>
    intro pr
    rw [List.foldl_cons]
    rw [ih (pushBucket pr i.source i.logType (f i))]
    by_cases hik : i.source = k
    · subst hik
      rw [bucketMsg_pushBucket_self]
      simp [List.any_cons, List.filter_cons, List.append_assoc]
    · have hik' : (i.source == k) = false := beq_eq_false_iff_ne.mpr hik
      rw [bucketMsg_pushBucket_ne pr i.source k i.logType (f i) (fun e => hik e.symm)]
      simp [List.any_cons, List.filter_cons, hik']

theorem wfMap_foldl_push (f : DbItem → PlainOut) :
    ∀ (items : List DbItem) (pr : PlainMap), wfMap pr →
      wfMap (items.foldl (fun acc i => pushBucket acc i.source i.logType (f i)) pr) := by
  intro items
  induction items with
  | nil => intro pr h; exact h
  | cons i rest ih =>
    intro pr h
    rw [List.foldl_cons]
    exact ih _ (wfMap_pushBucket h _ _ _)

theorem wfMsg_foldl_push (f : DbItem → PlainOut) :
    ∀ (items : List DbItem) (pr : PlainMap), wfMsg pr →
      wfMsg (items.foldl (fun acc i => pushBucket acc i.source i.logType (f i)) pr) := by
  intro items
  induction items with
  | nil => intro pr h; exact h
  | cons i rest ih =>
    intro pr h
    rw [List.foldl_cons]
    exact ih _ (wfMsg_pushBucket h _ _ _)

theorem find?_map_snd (k : String) :
    ∀ (pr : PlainMap), wfMap pr →
      (pr.map Prod.snd).find? (fun b => b.source == k) =
        (pr.find? (fun p => p.1 == k)).map Prod.snd := by
  intro pr
  induction pr with
  | nil => intro h; rfl
  | cons p rest ih =>
    intro h
    have hp : p.2.source = p.1 := h p (List.mem_cons_self _ _)
    have hrest : wfMap rest := fun q hq => h q (List.mem_cons_of_mem _ hq)
    simp only [List.map_cons, List.find?]
    rw [hp]
    cases hpk : (p.1 == k) with
    | true => rfl
    | false => exact ih hrest

theorem gb_discardedEvents (s : CorrState) (now : Int) :
    (gb s now).2.discardedEvents = s.discardedEvents := by
  simp only [gb]; split_ifs <;> rfl

theorem bookkeep_discardedEvents (s : CorrState) (dbI : DbItem) :
    (bookkeep s dbI).discardedEvents = s.discardedEvents := by
  simp only [bookkeep]; split_ifs <;> rfl

theorem update_state_discardedEvents_eq_gb (s : CorrState) (now : Int) (dbI : DbItem) :
    (update s now dbI).2.discardedEvents = (gb (bookkeep s dbI) now).2.discardedEvents := by
  simp only [update]
  split
  · split <;> rfl
  · split
    · split <;> rfl
    · split_ifs <;> split <;> rfl

theorem update_discardedEvents (s : CorrState) (now : Int) (dbI : DbItem) :
    (update s now dbI).2.discardedEvents = s.discardedEvents :=
  (update_state_discardedEvents_eq_gb s now dbI).trans
    ((gb_discardedEvents _ now).trans (bookkeep_discardedEvents s dbI))

theorem rawsOnly_map_item (l : List DbItem) : rawsOnly (l.map PlainOut.item) = [] := by
  induction l with
  | nil => rfl
  | cons d rest ih => simp [rawsOnly]

theorem rawsOnly_foldl_items (k : String) (ys : List DbItem) (pr : PlainMap) :
    rawsOnly ((bucketMsg (ys.foldl
        (fun acc y => pushBucket acc y.source y.logType (PlainOut.item y)) pr) k).getD []) =
      rawsOnly ((bucketMsg pr k).getD []) := by
  rw [bucketMsg_foldl_push (fun y => PlainOut.item y) k ys pr]
  split_ifs with hc
  · simp only [Option.getD_some]
    rw [show (List.map (fun y => PlainOut.item y) (List.filter (fun i => i.source == k) ys)) =
        (List.filter (fun i => i.source == k) ys).map PlainOut.item from rfl]
    rw [rawsOnly, List.filterMap_append]
    rw [show List.filterMap _ ((List.filter (fun i => i.source == k) ys).map PlainOut.item) =
        rawsOnly ((List.filter (fun i => i.source == k) ys).map PlainOut.item) from rfl]
    rw [rawsOnly_map_item]
    simp [rawsOnly]
  · have hnone : bucketMsg pr k = none := by
      cases ho : bucketMsg pr k with
      | none => rfl
      | some l => rw [ho] at hc; simp at hc
    rw [hnone]

theorem bucketMsg_isSome_foldl (f : DbItem → PlainOut) (items : List DbItem) (pr : PlainMap)
    (k : String) (h : (bucketMsg pr k).isSome = true) :
    (bucketMsg (items.foldl (fun acc i => pushBucket acc i.source i.logType (f i)) pr) k).isSome
      = true := by
  rw [bucketMsg_foldl_push f k items pr]
  rw [if_pos (by rw [h]; rfl)]
  rfl

theorem discard_step (pr : PlainMap) (src : String) (lt : Option String) (x : JsVal)
    (hwf : wfMap pr) :
    wfMap (pushBucket pr src lt (PlainOut.raw x)) ∧
    rawsOnly ((bucketMsg (pushBucket pr src lt (PlainOut.raw x)) src).getD []) =
      rawsOnly ((bucketMsg pr src).getD []) ++ [x] ∧
    ((bucketMsg pr src).isSome = true →
      (bucketMsg (pushBucket pr src lt (PlainOut.raw x)) src).isSome = true) := by
  refine ⟨wfMap_pushBucket hwf _ _ _, ?_, fun h => bucketMsg_isSome_pushBucket h _ _ _⟩
  rw [bucketMsg_pushBucket_self]
  simp [rawsOnly, List.filterMap_append]

theorem processElems_spec (src : String) (lt : Option String) (now : Int) :
    ∀ (elems : List JsVal) (pr : PlainMap) (cr : Option (EmitterInterface (List Fields)))
      (s : CorrState), (∀ x ∈ elems, (isEvent x).isOk = true) → wfMap pr →
      ∃ pr' cr',
        processElems src lt now elems pr cr s =
          (Except.ok (pr', cr'), (processElems src lt now elems pr cr s).2) ∧
        wfMap pr' ∧
        rawsOnly ((bucketMsg pr' src).getD []) =
          rawsOnly ((bucketMsg pr src).getD []) ++ elems.filter malformed ∧
        (processElems src lt now elems pr cr s).2.discardedEvents =
          s.discardedEvents + elems.countP malformed ∧
        ((bucketMsg pr src).isSome = true → (bucketMsg pr' src).isSome = true) := by
  intro elems
  induction elems with
  | nil =>
    intro pr cr s h hwf
    exact ⟨pr, cr, rfl, hwf, by simp, by simp [processElems], fun h => h⟩
  | cons x rest ih =>
    intro pr cr s h hwf
    have hrest : ∀ y ∈ rest, (isEvent y).isOk = true :=
      fun y hy => h y (List.mem_cons_of_mem _ hy)
    cases x with
    | prim v =>
      have := h (JsVal.prim v) (List.mem_cons_self _ _)
      simp [isEvent, Except.isOk, Except.toBool] at this
    | obj fs =>
      by_cases hev : isEventF fs = true
      · cases hts : parseInt10 (jsGetD fs "time_generated") with
        | some ts =>
          have hmal : malformed (JsVal.obj fs) = false := by
            simp [malformed, hev, hts]
          simp only [processElems]
          rw [if_pos hev, hts]
          dsimp only
          cases hu : (update s now { ts := ts, element := fs, source := src, logType := lt }).1 with
          | none =>
            dsimp only
            obtain ⟨pr', cr', h1, h2, h3, h4, h5⟩ := ih pr cr
              (update s now { ts := ts, element := fs, source := src, logType := lt }).2
              hrest hwf
            refine ⟨pr', cr', h1, h2, ?_, ?_, h5⟩
            · rw [h3, List.filter_cons, hmal]
              simp
            · rw [h4, update_discardedEvents, List.countP_cons, hmal]
              simp
          | some resp =>
            dsimp only
            cases hnc : resp.noncorr with
            | none =>
              dsimp only
              obtain ⟨pr', cr', h1, h2, h3, h4, h5⟩ := ih pr _
                (update s now { ts := ts, element := fs, source := src, logType := lt }).2
                hrest hwf
              refine ⟨pr', cr', h1, h2, ?_, ?_, h5⟩
              · rw [h3, List.filter_cons, hmal]
                simp
              · rw [h4, update_discardedEvents, List.countP_cons, hmal]
                simp
            | some ys =>
              dsimp only
              have hwf2 : wfMap (ys.foldl
                  (fun acc y => pushBucket acc y.source y.logType (PlainOut.item y)) pr) :=
                wfMap_foldl_push _ ys pr hwf
              obtain ⟨pr', cr', h1, h2, h3, h4, h5⟩ := ih
                (ys.foldl (fun acc y => pushBucket acc y.source y.logType (PlainOut.item y)) pr) _
                (update s now { ts := ts, element := fs, source := src, logType := lt }).2
                hrest hwf2
              refine ⟨pr', cr', h1, h2, ?_, ?_, ?_⟩
              · rw [h3, rawsOnly_foldl_items, List.filter_cons, hmal]
                simp
              · rw [h4, update_discardedEvents, List.countP_cons, hmal]
                simp
              · intro hpresent
                exact h5 (bucketMsg_isSome_foldl _ ys pr src hpresent)
        | none =>
          have hmal : malformed (JsVal.obj fs) = true := by
            simp [malformed, hts]
          simp only [processElems]
          rw [if_pos hev, hts]
          dsimp only
          obtain ⟨hwfd, hrawd, hmond⟩ :=
            discard_step pr src lt (JsVal.obj fs) hwf
          obtain ⟨pr', cr', h1, h2, h3, h4, h5⟩ := ih
            (pushBucket pr src lt (PlainOut.raw (JsVal.obj fs))) cr
            { s with discardedEvents := s.discardedEvents + 1 } hrest hwfd
          refine ⟨pr', cr', h1, h2, ?_, ?_, fun hp => h5 (hmond hp)⟩
          · rw [h3, hrawd, List.filter_cons, hmal, List.append_assoc]
            rfl
          · rw [h4, List.countP_cons, hmal]
            simp
            omega
      · have hmal : malformed (JsVal.obj fs) = true := by
          simp [malformed, hev]
        simp only [processElems]
        rw [if_neg hev]
        obtain ⟨hwfd, hrawd, hmond⟩ :=
          discard_step pr src lt (JsVal.obj fs) hwf
        obtain ⟨pr', cr', h1, h2, h3, h4, h5⟩ := ih
          (pushBucket pr src lt (PlainOut.raw (JsVal.obj fs))) cr
          { s with discardedEvents := s.discardedEvents + 1 } hrest hwfd
        refine ⟨pr', cr', h1, h2, ?_, ?_, fun hp => h5 (hmond hp)⟩
        · rw [h3, hrawd, List.filter_cons, hmal, List.append_assoc]
          rfl
        · rw [h4, List.countP_cons, hmal]
          simp
          omega

theorem sourceBucket_eq_bucketMsg (pr : PlainMap) (k : String) (hwf : wfMap pr)
    (hmsg : wfMsg pr) :
    sourceBucket (pr.map (fun p => p.2)) k = bucketMsg pr k := by
  unfold sourceBucket
  rw [show pr.map (fun p => p.2) = pr.map Prod.snd from rfl, find?_map_snd k pr hwf]
  cases hf : pr.find? (fun p => p.1 == k) with
  | none => simp [bucketMsg, hf]
  | some q =>
    have hq := hmsg q (List.mem_of_find?_eq_some hf)
    obtain ⟨m, hm⟩ := Option.isSome_iff_exists.mp hq
    simp [bucketMsg, hf, hm]

theorem plainRaws_map_snd (pr : PlainMap) (k : String) (hwf : wfMap pr) (hmsg : wfMsg pr) :
    plainRaws (pr.map (fun p => p.2)) k = rawsOnly ((bucketMsg pr k).getD []) := by
  unfold plainRaws
  rw [sourceBucket_eq_bucketMsg pr k hwf hmsg]

theorem wfMsg_processElems (src : String) (lt : Option String) (now : Int) :
    ∀ (elems : List JsVal) (pr : PlainMap) (cr : Option (EmitterInterface (List Fields)))
      (s : CorrState) (pr' : List (String × EmitterInterface (List PlainOut)))
      (cr' : Option (EmitterInterface (List Fields))),
      wfMsg pr →
      (processElems src lt now elems pr cr s).1 = Except.ok (pr', cr') →
      wfMsg pr' := by
  intro elems
  induction elems with
  | nil =>
    intro pr cr s pr' cr' hwf heq
    simp only [processElems] at heq
    cases heq
    exact hwf
  | cons x rest ih =>
    intro pr cr s pr' cr' hwf heq
    cases x with
    | prim v => simp [processElems] at heq
    | obj fs =>
      simp only [processElems] at heq
      by_cases hev : isEventF fs = true
      · rw [if_pos hev] at heq
        cases hts : parseInt10 (jsGetD fs "time_generated") with
        | some ts =>
          rw [hts] at heq
          dsimp only at heq
          cases hu : (update s now { ts := ts, element := fs, source := src, logType := lt }).1 with
          | none =>
            rw [hu] at heq
            exact ih _ _ _ _ _ hwf heq
          | some resp =>
            rw [hu] at heq
            dsimp only at heq
            cases hnc : resp.noncorr with
            | none =>
              rw [hnc] at heq
              exact ih _ _ _ _ _ hwf heq
            | some ys =>
              rw [hnc] at heq
              exact ih _ _ _ _ _ (wfMsg_foldl_push _ ys pr hwf) heq
        | none =>
          rw [hts] at heq
          dsimp only at heq
          exact ih _ _ _ _ _ (wfMsg_pushBucket hwf _ _ _) heq
      · rw [if_neg hev] at heq
        exact ih _ _ _ _ _ (wfMsg_pushBucket hwf _ _ _) heq

/-- C7 (amended): for a batch whose payload elements are all objects, each
element lacking time_generated or sessionid, or whose time_generated does
not parse as an integer, increments discardedEvents by exactly 1 and lands
unchanged, in order, among the raw elements of the plain bucket keyed by
the batch's source; no other element increments the counter.  Non-object
elements abort process with a TypeError instead, as
C7_nonobject_discard_counterexample shows. -/
theorem C7_discard_accounting (s : CorrState) (now : Int) (src : String) (lt : Option String)
    (msg : List JsVal) (h : ∀ x ∈ msg, (isEvent x).isOk = true) :
    ∃ resp s',
      process s now { source := src, logType := lt, message := some msg } =
        (Except.ok resp, s') ∧
      s'.discardedEvents = s.discardedEvents + msg.countP malformed ∧
      plainRaws resp.plain src = msg.filter malformed := by
  have hwf0 : wfMap [(src, { source := src, logType := lt, message := some [] })] := by
    intro p hp
    simp at hp
    subst hp
    rfl
  have hmsg0 : wfMsg [(src, { source := src, logType := lt, message := some [] })] := by
    intro p hp
    simp at hp
    subst hp
    rfl
  obtain ⟨pr', cr', h1, h2, h3, h4, h5⟩ := processElems_spec src lt now msg
    [(src, { source := src, logType := lt, message := some [] })] none s h hwf0
  have hmsg' : wfMsg pr' := by
    apply wfMsg_processElems src lt now msg _ none s pr' cr' hmsg0
    rw [h1]
  refine ⟨{ plain := pr'.map (fun p => p.2), correlated := cr' },
    (processElems src lt now msg
      [(src, { source := src, logType := lt, message := some [] })] none s).2, ?_, h4, ?_⟩
  · simp only [process]
    rw [h1]
  · rw [plainRaws_map_snd pr' src h2 hmsg', h3]
    have hb0 : bucketMsg [(src, { source := src, logType := lt, message := some [] })] src =
        some [] := by
      simp [bucketMsg, List.find?]
    rw [hb0]
    rfl

/-- Witness for C7: the amended theorem applied at a concrete batch with two
malformed elements out of three. -/
theorem C7_discard_accounting_witness :
    (∀ x ∈ c7GoodMsg, (isEvent x).isOk = true) ∧
    ∃ resp s',
      process (mkCorrelator 120 false 0) 12
          { source := "es", logType := none, message := some c7GoodMsg } =
        (Except.ok resp, s') ∧
      s'.discardedEvents = (mkCorrelator 120 false 0).discardedEvents + c7GoodMsg.countP malformed ∧
      plainRaws resp.plain "es" = c7GoodMsg.filter malformed :=
  ⟨by decide, C7_discard_accounting (mkCorrelator 120 false 0) 12 "es" none c7GoodMsg (by decide)⟩

/-- C9: flush empties the Store, a second flush returns an empty plain set,
and the single flush output bucket for any source holds exactly the raw
elements of the Store entries carrying that source, in Store order. -/
theorem C9_flush_drains_store (s : CorrState) (k : String) :
    (flush s).2.db = [] ∧
    (flush ((flush s).2)).1.plain = [] ∧
    sourceBucket (flush s).1.plain k =
      (if s.db.any (fun i => i.source == k) then
        some ((s.db.filter (fun i => i.source == k)).map
          (fun i => PlainOut.raw (JsVal.obj i.element)))
      else none) := by
  refine ⟨rfl, rfl, ?_⟩
  have hwf : wfMap (s.db.foldl
      (fun acc item => pushBucket acc item.source item.logType
        (PlainOut.raw (JsVal.obj item.element))) []) :=
    wfMap_foldl_push _ s.db [] (fun p hp => absurd hp (List.not_mem_nil p))
  have hmsg : wfMsg (s.db.foldl
      (fun acc item => pushBucket acc item.source item.logType
        (PlainOut.raw (JsVal.obj item.element))) []) :=
    wfMsg_foldl_push _ s.db [] (fun p hp => absurd hp (List.not_mem_nil p))
  show sourceBucket ((s.db.foldl
      (fun acc item => pushBucket acc item.source item.logType
        (PlainOut.raw (JsVal.obj item.element))) []).map (fun p => p.2)) k = _
  rw [sourceBucket_eq_bucketMsg _ k hwf hmsg]
  rw [bucketMsg_foldl_push (fun i => PlainOut.raw (JsVal.obj i.element)) k s.db []]
  rw [show bucketMsg [] k = none from rfl]
  simp

theorem jsGet_eq_some_of_hasField (fs : Fields) (k : String) (h : hasField fs k = true) :
    jsGet fs k = some (jsGetD fs k) := by
  unfold jsGetD
  cases hf : jsGet fs k with
  | some v => rfl
  | none =>
    exfalso
    unfold jsGet at hf
    rw [Option.map_eq_none'] at hf
    rw [List.find?_eq_none] at hf
    unfold hasField at h
    rw [List.any_eq_true] at h
    obtain ⟨p, hp, hpk⟩ := h
    exact hf p hp hpk

theorem jsGet_jsSet_self (fs : Fields) (k v : String) : jsGet (jsSet fs k v) k = some v := by
  unfold jsSet
  by_cases h : hasField fs k
  · rw [if_pos h]
    unfold jsGet
    rw [List.find?_map]
    have hpred : ((fun p : String × String => p.1 == k) ∘
        (fun p : String × String => if p.1 == k then (p.1, v) else p)) =
        fun p : String × String => p.1 == k := by
      funext p
      by_cases hp : p.1 = k <;> simp [hp]
    rw [hpred]
    have hsome : (fs.find? (fun p => p.1 == k)).isSome = true := by
      rw [List.find?_isSome]
      exact List.any_eq_true.mp h
    obtain ⟨q, hq⟩ := Option.isSome_iff_exists.mp hsome
    have hq1 := List.find?_some hq
    have hq1' : q.1 = k := by simpa using hq1
    rw [hq]
    simp [hq1']
  · rw [if_neg h]
    unfold jsGet
    rw [List.find?_append]
    have hnone : fs.find? (fun p => p.1 == k) = none := by
      rw [List.find?_eq_none]
      intro p hp hpk
      unfold hasField at h
      rw [List.any_eq_true] at h
      exact h ⟨p, hp, hpk⟩
    rw [hnone]
    simp [List.find?]

theorem jsGet_jsSet_ne (fs : Fields) (k k' v : String) (h : k' ≠ k) :
    jsGet (jsSet fs k v) k' = jsGet fs k' := by
  unfold jsSet
  by_cases hany : hasField fs k
  · rw [if_pos hany]
    unfold jsGet
    rw [List.find?_map]
    have hpred : ((fun p : String × String => p.1 == k') ∘
        (fun p : String × String => if p.1 == k then (p.1, v) else p)) =
        fun p : String × String => p.1 == k' := by
      funext p
      by_cases hp : p.1 = k <;> simp [hp]
    rw [hpred]
    cases hf : fs.find? (fun p => p.1 == k') with
    | none => rfl
    | some q =>
      have hq1 := List.find?_some hf
      have hq1' : q.1 = k' := by simpa using hq1
      have hqk : ¬ q.1 = k := by rw [hq1']; exact h
      simp [hqk]
  · rw [if_neg hany]
    unfold jsGet
    rw [List.find?_append]
    have hkk : (k == k') = false := beq_eq_false_iff_ne.mpr (fun e => h e.symm)
    have htail : ([(k, v)] : Fields).find? (fun p => p.1 == k') = none := by
      simp [List.find?, hkk]
    rw [htail, Option.or_none]

theorem bookkeep_db (s : CorrState) (dbI : DbItem) : (bookkeep s dbI).db = s.db := by
  simp only [bookkeep]; split_ifs <;> rfl

theorem mem_gb_db {x : DbItem} {s : CorrState} {now : Int}
    (hx : x ∈ (gb s now).2.db) : x ∈ s.db := by
  have hperm : (sortByTs s.db).Perm s.db := List.perm_insertionSort _ _
  simp only [gb] at hx
  by_cases h1 : s.gbAttempt + 1 > s.gbMultiplier
  · rw [if_pos h1] at hx
    by_cases h2 : goPointer ((if s.absoluteTime then now else s.lastTs) - s.ageout)
        (sortByTs s.db) 0 ≠ 0
    · rw [if_pos h2] at hx
      exact hperm.mem_iff.mp ((List.drop_sublist _ _).subset hx)
    · rw [if_neg h2] at hx
      exact hperm.mem_iff.mp hx
  · rw [if_neg h1] at hx
    exact hx

theorem l3Merged_other (b o : DbItem) (k : String)
    (h1 : k ≠ "extended-traffic-log-mac") (h2 : k ≠ "extended-traffic-log-mac-stc") :
    jsGet (l3MergedElement b o) k = jsGet b.element k := by
  unfold l3MergedElement
  rw [jsGet_jsSet_ne _ _ _ _ h2, jsGet_jsSet_ne _ _ _ _ h1]

theorem l3Merged_mac (b o : DbItem)
    (h : hasField o.element "extended-traffic-log-mac" = true) :
    jsGet (l3MergedElement b o) "extended-traffic-log-mac" =
      jsGet o.element "extended-traffic-log-mac" := by
  unfold l3MergedElement
  rw [jsGet_jsSet_ne _ _ _ _ (by decide), jsGet_jsSet_self]
  exact (jsGet_eq_some_of_hasField _ _ h).symm

theorem l3Merged_macstc (b o : DbItem)
    (h : hasField o.element "extended-traffic-log-mac-stc" = true) :
    jsGet (l3MergedElement b o) "extended-traffic-log-mac-stc" =
      jsGet o.element "extended-traffic-log-mac-stc" := by
  unfold l3MergedElement
  rw [jsGet_jsSet_self]
  exact (jsGet_eq_some_of_hasField _ _ h).symm

theorem isL2EventF_hasField_mac {fs : Fields} (h : isL2EventF fs = true) :
    hasField fs "extended-traffic-log-mac" = true :=
  (Bool.and_eq_true_iff.mp (Bool.and_eq_true_iff.mp h).1).2

theorem isL2EventF_hasField_macstc {fs : Fields} (h : isL2EventF fs = true) :
    hasField fs "extended-traffic-log-mac-stc" = true :=
  (Bool.and_eq_true_iff.mp h).2

/-- C4 (amended): every successful correlation pairs the new arrival with a
same-sessionid Store entry, and the CorrelatedEvent carries the L3 side's
address fields, the L2 side's MAC fields, and the time_generated, sessionid
and provenance of the L3 side: those of the trigger when the trigger is the
L3 event, but those of the buffered L3 entry when the L2 event triggers
(there the buffered event's time_generated is kept, not the trigger's, as
C4_time_generated_counterexample shows). -/
theorem C4_correlated_fields (s0 : CorrState) (now : Int) (dbI : DbItem)
    (r : UpdateResp) (s' : CorrState) (c : DbItem)
    (hup : update s0 now dbI = (some r, s'))
    (hc : r.corr = some c) :
    ∃ m, m ∈ s0.db ∧ sessionMatch dbI m = true ∧
      ((isL2EventF m.element = true ∧ isL3EventF dbI.element = true ∧
        c.ts = dbI.ts ∧ c.source = dbI.source ∧ c.logType = dbI.logType ∧
        jsGet c.element "src" = jsGet dbI.element "src" ∧
        jsGet c.element "dst" = jsGet dbI.element "dst" ∧
        jsGet c.element "time_generated" = jsGet dbI.element "time_generated" ∧
        jsGet c.element "sessionid" = jsGet dbI.element "sessionid" ∧
        jsGet c.element "extended-traffic-log-mac" =
          jsGet m.element "extended-traffic-log-mac" ∧
        jsGet c.element "extended-traffic-log-mac-stc" =
          jsGet m.element "extended-traffic-log-mac-stc") ∨
       (isL3EventF m.element = true ∧ isL2EventF dbI.element = true ∧
        c.ts = m.ts ∧ c.source = m.source ∧ c.logType = m.logType ∧
        jsGet c.element "src" = jsGet m.element "src" ∧
        jsGet c.element "dst" = jsGet m.element "dst" ∧
        jsGet c.element "time_generated" = jsGet m.element "time_generated" ∧
        jsGet c.element "sessionid" = jsGet m.element "sessionid" ∧
        jsGet c.element "extended-traffic-log-mac" =
          jsGet dbI.element "extended-traffic-log-mac" ∧
        jsGet c.element "extended-traffic-log-mac-stc" =
          jsGet dbI.element "extended-traffic-log-mac-stc")) := by
  simp only [update] at hup
  split at hup
  · split at hup <;>
      (rw [Prod.mk.injEq] at hup
       obtain ⟨hr, hs⟩ := hup
       rw [Option.some.injEq] at hr
       rw [← hr] at hc
       simp at hc)
  · split at hup
    · split at hup <;>
        first
        | (rw [Prod.mk.injEq] at hup
           obtain ⟨hr, hs⟩ := hup
           rw [Option.some.injEq] at hr
           rw [← hr] at hc
           simp at hc)
        | (rw [Prod.mk.injEq] at hup
           exact absurd hup.1 (by simp))
    · rename_i m hfind
      have hmem : m ∈ s0.db := by
        have hmem2 := List.mem_of_find?_eq_some hfind
        rw [← bookkeep_db s0 dbI]
        exact mem_gb_db hmem2
      have hsm : sessionMatch dbI m = true := List.find?_some hfind
      split_ifs at hup with hc1 hc2
      · obtain ⟨hL2m, hL3d⟩ := Bool.and_eq_true_iff.mp hc1
        have hcel : c = { dbI with element := l3MergedElement dbI m } := by
          split at hup <;>
            (rw [Prod.mk.injEq] at hup
             obtain ⟨hr, hs⟩ := hup
             rw [Option.some.injEq] at hr
             rw [← hr] at hc
             simp at hc
             exact hc.symm)
        have hcelem : c.element = l3MergedElement dbI m := by rw [hcel]
        refine ⟨m, hmem, hsm, Or.inl ⟨hL2m, hL3d, by rw [hcel], by rw [hcel], by rw [hcel],
          ?_, ?_, ?_, ?_, ?_, ?_⟩⟩
        · rw [hcelem, l3Merged_other _ _ _ (by decide) (by decide)]
        · rw [hcelem, l3Merged_other _ _ _ (by decide) (by decide)]
        · rw [hcelem, l3Merged_other _ _ _ (by decide) (by decide)]
        · rw [hcelem, l3Merged_other _ _ _ (by decide) (by decide)]
        · rw [hcelem, l3Merged_mac _ _ (isL2EventF_hasField_mac hL2m)]
        · rw [hcelem, l3Merged_macstc _ _ (isL2EventF_hasField_macstc hL2m)]
      · obtain ⟨hL3m, hL2d⟩ := Bool.and_eq_true_iff.mp hc2
        have hcel : c = { m with element := l3MergedElement m dbI } := by
          split at hup <;>
            (rw [Prod.mk.injEq] at hup
             obtain ⟨hr, hs⟩ := hup
             rw [Option.some.injEq] at hr
             rw [← hr] at hc
             simp at hc
             exact hc.symm)
        have hcelem : c.element = l3MergedElement m dbI := by rw [hcel]
        refine ⟨m, hmem, hsm, Or.inr ⟨hL3m, hL2d, by rw [hcel], by rw [hcel], by rw [hcel],
          ?_, ?_, ?_, ?_, ?_, ?_⟩⟩
        · rw [hcelem, l3Merged_other _ _ _ (by decide) (by decide)]
        · rw [hcelem, l3Merged_other _ _ _ (by decide) (by decide)]
        · rw [hcelem, l3Merged_other _ _ _ (by decide) (by decide)]
        · rw [hcelem, l3Merged_other _ _ _ (by decide) (by decide)]
        · rw [hcelem, l3Merged_mac _ _ (isL2EventF_hasField_mac hL2d)]
        · rw [hcelem, l3Merged_macstc _ _ (isL2EventF_hasField_macstc hL2d)]
      · split at hup <;>
          (rw [Prod.mk.injEq] at hup
           obtain ⟨hr, hs⟩ := hup
           rw [Option.some.injEq] at hr
           rw [← hr] at hc
           simp at hc)

/-- C1: the spec promises that with ageoutSeconds 120, gcMultiplier 0 and
absolute time, buffering an event at time 1000 and then updating with an
event at time 1121 returns the first event in the aged-out nonCorrelated
set and leaves the Store empty.  The code does neither: the every-scan of
gb leaves pointer at the last visited index, which is 0 for the
single-entry Store, so no eviction happens; the second call returns null
and both events sit in the Store. -/
theorem C1_aged_out_entry_not_evicted :
    (update (update c1Correlator 1000 c1First).2 1121 c1Second).1 = none ∧
    (update (update c1Correlator 1000 c1First).2 1121 c1Second).2.db = [c1First, c1Second] :=
  ⟨rfl, rfl⟩

/-- C3: the emitted CORR_EVENT payload element does not carry the
CorrelatedEvent's dst field: emitter.ts line 310 populates dst from x.src,
so the emitted dst is 1.1.1.1 although the correlated event's dst field is
2.2.2.2. -/
theorem C3_corr_projection_dst_is_src :
    (emitCorr c3Emitter { source := "s", logType := none, message := some [c3Event] }).1 =
      [{ source := "s", logType := none,
         message := some [{ time_generated := "101", sessionid := "S", src := "1.1.1.1",
                            dst := "1.1.1.1", mac := "m1", macstc := "m2" }] }] ∧
    jsGetD c3Event "dst" = "2.2.2.2" :=
  ⟨rfl, rfl⟩

/-- C4 counterexample: when the L3 event arrives first and the L2 event
triggers the correlation, the CorrelatedEvent keeps the L3 event's
time_generated (100), not the triggering event's (101), refuting the claim
as stated. -/
theorem C4_time_generated_counterexample :
    ((update (update c4State 100 c4L3).2 101 c4L2).1.bind (fun r => r.corr)).map
        (fun c => jsGetD c.element "time_generated") = some "100" ∧
    jsGetD c4L2.element "time_generated" = "101" ∧ ("100" : String) ≠ "101" :=
  ⟨rfl, rfl, by decide⟩

/-- C5 counterexample: on a sessionid collision with no structural
complement the code emits only the new event as non-correlated and keeps
the existing pending entry in the Store, refuting the claim that the
existing bookkeeping is replaced and both events are emitted unmatched. -/
theorem C5_collision_counterexample :
    (update (update c5State 100 c5L2a).2 101 c5L2b).1 =
      some { noncorr := some [c5L2b], corr := none } ∧
    (update (update c5State 100 c5L2a).2 101 c5L2b).2.db = [c5L2a] :=
  ⟨rfl, rfl⟩

/-- C6 counterexample: a payload element that is not an object makes
isEvent apply the in operator to a non-object, which throws a TypeError,
so process does not run to completion, refuting the claim that process
never raises for elements of any shape. -/
theorem C6_nonobject_throws :
    (process (mkCorrelator 120 false 0) 0 c6Batch).1 =
      Except.error "TypeError: cannot use in operator on a non-object" :=
  rfl

/-- C7 counterexample: a payload element lacking sessionid (a non-object)
does not increment discardedEvents and does not appear in the plain
output; process aborts with a TypeError instead, refuting the claim for
such elements. -/
theorem C7_nonobject_discard_counterexample :
    (process (mkCorrelator 120 false 0) 0 c7Batch).2.discardedEvents = 0 ∧
    (process (mkCorrelator 120 false 0) 0 c7Batch).1 =
      Except.error "TypeError: cannot use in operator on a non-object" :=
  ⟨rfl, rfl⟩

/-- Witness for C4: the amended theorem applied at the concrete L3-then-L2
correlation. -/
theorem C4_correlated_fields_witness :
    ∃ m, m ∈ c4S1.db ∧ sessionMatch c4L2 m = true ∧
      ((isL2EventF m.element = true ∧ isL3EventF c4L2.element = true ∧
        c4Corr.ts = c4L2.ts ∧ c4Corr.source = c4L2.source ∧ c4Corr.logType = c4L2.logType ∧
        jsGet c4Corr.element "src" = jsGet c4L2.element "src" ∧
        jsGet c4Corr.element "dst" = jsGet c4L2.element "dst" ∧
        jsGet c4Corr.element "time_generated" = jsGet c4L2.element "time_generated" ∧
        jsGet c4Corr.element "sessionid" = jsGet c4L2.element "sessionid" ∧
        jsGet c4Corr.element "extended-traffic-log-mac" =
          jsGet m.element "extended-traffic-log-mac" ∧
        jsGet c4Corr.element "extended-traffic-log-mac-stc" =
          jsGet m.element "extended-traffic-log-mac-stc") ∨
       (isL3EventF m.element = true ∧ isL2EventF c4L2.element = true ∧
        c4Corr.ts = m.ts ∧ c4Corr.source = m.source ∧ c4Corr.logType = m.logType ∧
        jsGet c4Corr.element "src" = jsGet m.element "src" ∧
        jsGet c4Corr.element "dst" = jsGet m.element "dst" ∧
        jsGet c4Corr.element "time_generated" = jsGet m.element "time_generated" ∧
        jsGet c4Corr.element "sessionid" = jsGet m.element "sessionid" ∧
        jsGet c4Corr.element "extended-traffic-log-mac" =
          jsGet c4L2.element "extended-traffic-log-mac" ∧
        jsGet c4Corr.element "extended-traffic-log-mac-stc" =
          jsGet c4L2.element "extended-traffic-log-mac-stc")) :=
  C4_correlated_fields c4S1 101 c4L2 c4Resp c4SFinal c4Corr rfl rfl

/-- C5 (amended): when the incoming entry collides on sessionid with a
pending entry that is no structural complement, update emits only the new
entry as non-correlated (appended to any eviction batch), produces no
correlated result, and leaves the Store exactly as the eviction sweep left
it: the existing pending entry stays and the new entry is not inserted. -/
theorem C5_collision_keeps_existing (s0 s1 : CorrState) (now : Int) (dbI m : DbItem)
    (c : Option (List DbItem))
    (hgb : gb (bookkeep s0 dbI) now = (c, s1))
    (hfresh : ¬ (dbI.ts < s1.lastTs - s1.ageout))
    (hfind : s1.db.find? (sessionMatch dbI) = some m)
    (hnc1 : (isL2EventF m.element && isL3EventF dbI.element) = false)
    (hnc2 : (isL3EventF m.element && isL2EventF dbI.element) = false) :
    update s0 now dbI = (some { noncorr := some (c.getD [] ++ [dbI]), corr := none }, s1) ∧
    m ∈ (update s0 now dbI).2.db := by
  have hmain : update s0 now dbI =
      (some { noncorr := some (c.getD [] ++ [dbI]), corr := none }, s1) := by
    simp only [update]
    rw [hgb]
    rw [if_neg hfresh]
    rw [hfind]
    dsimp only
    rw [if_neg (by rw [hnc1]; simp), if_neg (by rw [hnc2]; simp)]
    cases c with
    | some cl => rfl
    | none => rfl
  refine ⟨hmain, ?_⟩
  rw [hmain]
  exact List.mem_of_find?_eq_some hfind

/-- Witness for C5: the amended theorem applied at the concrete collision of
two L2 events sharing sessionid S. -/
theorem C5_collision_keeps_existing_witness :
    update c5wS0 101 c5L2b =
      (some { noncorr := some ((none : Option (List DbItem)).getD [] ++ [c5L2b]),
              corr := none }, c5wS1) ∧
    c5L2a ∈ (update c5wS0 101 c5L2b).2.db :=
  C5_collision_keeps_existing c5wS0 c5wS1 101 c5L2b c5L2a none rfl (by decide) rfl rfl rfl

theorem emitCorr_notifyEvent (st : EmitterState) (c : EmitterInterface (List Fields)) :
    (emitCorr st c).2.notifyEvent = st.notifyEvent := by
  simp only [emitCorr]
  split <;> rfl

/-- C10: when correlation is enabled and EVENT_EVENT has subscribers, every
correlated result of a processed batch is delivered on the EVENT_EVENT
topic too, as the first emitted batch, before the plain batches; the
CORR_EVENT subscribers receive it independently. -/
theorem C10_correlated_on_event_topic (st : EmitterState) (now : Int)
    (e : EmitterInterface (List JsVal)) (resp : ProcResponse) (s2 : CorrState)
    (c : EmitterInterface (List Fields))
    (hl2 : st.l2enable = true) (hev : st.notifyEvent = true)
    (hp : process st.l2engine now e = (Except.ok resp, s2))
    (hcorr : resp.correlated = some c) :
    ∃ res, (emitMessage st now e).1 = Except.ok res ∧
      res.eventEmissions = corrToEventBatch c :: resp.plain := by
  simp only [emitMessage]
  rw [if_pos hl2, hp]
  dsimp only
  rw [hcorr]
  dsimp only
  by_cases hnc : st.notifyCorr = true
  · rw [if_pos hnc]
    rw [if_pos (show (emitCorr { st with l2engine := s2 } c).2.notifyEvent = true from
      (emitCorr_notifyEvent _ _).trans hev)]
    exact ⟨_, rfl, rfl⟩
  · rw [if_neg hnc]
    rw [if_pos (show ({ st with l2engine := s2 } : EmitterState).notifyEvent = true from hev)]
    exact ⟨_, rfl, rfl⟩

/-- Witness for C10: the theorem applied at a concrete correlating batch. -/
theorem C10_correlated_on_event_topic_witness :
    ∃ res, (emitMessage c10Emitter 101 c10Batch).1 = Except.ok res ∧
      res.eventEmissions = corrToEventBatch c10Corr :: c10Resp.plain :=
  C10_correlated_on_event_topic c10Emitter 101 c10Batch c10Resp c10S2 c10Corr rfl rfl rfl rfl

end PanCloud

